import Mathlib

/-!
Shallow embedding of the juju coordination subsystems: the Leadership
Lease Coordinator, the worker termination signalling, the wire parameter
shapes from the params package, entity-name construction from
state/api/apiclient.go, block-device path resolution, and the HTTP
storage backend from httpstorage.
-/

/-- Modelled from the spec: the error taxonomy of the Leadership Lease
Coordinator (section 7); the coordinator itself is not among the source
files, only its wire parameter types are. -/
inductive LeaseError where
  | LeaseHeld
  | NotLeader
  deriving DecidableEq, Repr

/-- Modelled from the spec: a ServiceLeadershipLease record (section 3)
with ServiceID, HolderUnitID and ExpiryTimestamp; time is a natural
number read from the injectable monotonic clock. -/
structure ServiceLeadershipLease where
  ServiceID : String
  HolderUnitID : String
  ExpiryTimestamp : Nat
  deriving DecidableEq, Repr

/-- Modelled from the spec: the coordinator state, an owned table of
per-service lease entries plus the per-service LeadershipSettings
mappings (section 3). -/
structure LeaseState where
  leases : List ServiceLeadershipLease
  settings : List (String × List (String × String))
  deriving DecidableEq, Repr

/-- Look up the lease entry for a service: first matching table entry. -/
def findLease (st : LeaseState) (serviceID : String) : Option ServiceLeadershipLease :=
  st.leases.find? (fun l => l.ServiceID == serviceID)

/-- Write the lease entry for a service, replacing any previous entry. -/
def setLease (st : LeaseState) (serviceID holderUnitID : String) (expiry : Nat) : LeaseState :=
  { st with leases :=
      ⟨serviceID, holderUnitID, expiry⟩ :: st.leases.filter (fun l => l.ServiceID != serviceID) }

/-- Remove the lease entry for a service. -/
def clearLease (st : LeaseState) (serviceID : String) : LeaseState :=
  { st with leases := st.leases.filter (fun l => l.ServiceID != serviceID) }

/-- A unit holds an unexpired lease on a service at instant t: the table
entry for the service names it as holder, the holder field is non-empty
(an empty HolderUnitID means unheld), and the expiry is in the future. -/
def holdsLease (st : LeaseState) (t : Nat) (serviceID unitID : String) : Bool :=
  match findLease st serviceID with
  | some l => l.HolderUnitID == unitID && unitID != "" && decide (t < l.ExpiryTimestamp)
  | none => false

/-- Modelled from the spec: ClaimLeadership (section 4.1). If unheld or
held-and-expired, grants to unitID with expiry now plus the minimum of
the requested duration and maxDuration; if held by unitID already, a
renewal that extends the expiry and never shortens it; if held by a
different unexpired unit, fails with LeaseHeld and leaves the state
unchanged. Returns the duration actually granted. -/
def ClaimLeadership (maxDuration now : Nat) (serviceID unitID : String)
    (requestedDuration : Nat) (st : LeaseState) : Except LeaseError Nat × LeaseState :=
  let granted := min requestedDuration maxDuration
  match findLease st serviceID with
  | none => (Except.ok granted, setLease st serviceID unitID (now + granted))
  | some l =>
    if l.HolderUnitID = "" ∨ l.ExpiryTimestamp ≤ now then
      (Except.ok granted, setLease st serviceID unitID (now + granted))
    else if l.HolderUnitID = unitID then
      (Except.ok granted,
       setLease st serviceID unitID (max l.ExpiryTimestamp (now + granted)))
    else
      (Except.error LeaseError.LeaseHeld, st)

/-- Modelled from the spec: ReleaseLeadership (section 4.1). Fails with
NotLeader if unitID is not the current holder; releasing an
already-unheld or expired lease is a no-op success; otherwise clears
the lease immediately. -/
def ReleaseLeadership (now : Nat) (serviceID unitID : String)
    (st : LeaseState) : Except LeaseError Unit × LeaseState :=
  match findLease st serviceID with
  | none => (Except.ok (), st)
  | some l =>
    if l.HolderUnitID = "" ∨ l.ExpiryTimestamp ≤ now then
      (Except.ok (), st)
    else if l.HolderUnitID = unitID then
      (Except.ok (), clearLease st serviceID)
    else
      (Except.error LeaseError.NotLeader, st)

/-- Look up a key in a settings mapping. -/
def settingsLookup (m : List (String × String)) (k : String) : Option String :=
  (m.find? (fun p => p.1 == k)).map (fun p => p.2)

/-- Delete a key from a settings mapping. -/
def settingsErase (m : List (String × String)) (k : String) : List (String × String) :=
  m.filter (fun p => p.1 != k)

/-- Set a key in a settings mapping. -/
def settingsInsert (m : List (String × String)) (k v : String) : List (String × String) :=
  (k, v) :: settingsErase m k

/-- Modelled from the spec: the field-wise merge of section 4.1 — keys
present in updates overwrite, keys absent are untouched, a key mapped
to the empty string is deleted. -/
def mergeSettings (current updates : List (String × String)) : List (String × String) :=
  updates.foldl
    (fun acc kv => if kv.2 = "" then settingsErase acc kv.1 else settingsInsert acc kv.1 kv.2)
    current

/-- Read the stored settings mapping for a service (empty when absent). -/
def GetLeadershipSettings (st : LeaseState) (serviceID : String) : List (String × String) :=
  match st.settings.find? (fun p => p.1 == serviceID) with
  | some p => p.2
  | none => []

/-- Store the settings mapping for a service. -/
def putSettings (st : LeaseState) (serviceID : String)
    (m : List (String × String)) : LeaseState :=
  { st with settings := (serviceID, m) :: st.settings.filter (fun p => p.1 != serviceID) }

/-- Modelled from the spec: MergeLeadershipSettings (section 4.1). Fails
with NotLeader unless unitID currently holds the lease; on success
performs the field-wise merge into the stored mapping. -/
def MergeLeadershipSettings (now : Nat) (serviceID unitID : String)
    (updates : List (String × String)) (st : LeaseState) :
    Except LeaseError Unit × LeaseState :=
  if holdsLease st now serviceID unitID then
    (Except.ok (),
     putSettings st serviceID (mergeSettings (GetLeadershipSettings st serviceID) updates))
  else
    (Except.error LeaseError.NotLeader, st)

/-- Modelled from the spec: the states reachable from the empty
coordinator state by claim, release and merge operations at arbitrary
instants (section 3, lifecycle). -/
inductive Reachable : LeaseState → Prop where
  | init : Reachable ⟨[], []⟩
  | claim (maxDuration now : Nat) (serviceID unitID : String) (d : Nat) (st : LeaseState) :
      Reachable st → Reachable (ClaimLeadership maxDuration now serviceID unitID d st).2
  | release (now : Nat) (serviceID unitID : String) (st : LeaseState) :
      Reachable st → Reachable (ReleaseLeadership now serviceID unitID st).2
  | merge (now : Nat) (serviceID unitID : String) (updates : List (String × String))
      (st : LeaseState) :
      Reachable st → Reachable (MergeLeadershipSettings now serviceID unitID updates st).2

/-- Modelled from the spec: the bulk claim variant (sections 4.1 and 6)
— the elements are processed in order against the threaded coordinator
state and every element receives its own outcome. -/
def ClaimLeadershipBulk (maxDuration now : Nat) (st : LeaseState)
    (ps : List (String × String × Nat)) : List (Except LeaseError Nat) × LeaseState :=
  match ps with
  | [] => ([], st)
  | p :: rest =>
    let r := ClaimLeadership maxDuration now p.1 p.2.1 p.2.2 st
    let rs := ClaimLeadershipBulk maxDuration now r.2 rest
    (r.1 :: rs.1, rs.2)

/-- Modelled from the spec: the bulk release variant (sections 4.1 and
6), processed like the bulk claim. -/
def ReleaseLeadershipBulk (now : Nat) (st : LeaseState)
    (ps : List (String × String)) : List (Except LeaseError Unit) × LeaseState :=
  match ps with
  | [] => ([], st)
  | p :: rest =>
    let r := ReleaseLeadership now p.1 p.2 st
    let rs := ReleaseLeadershipBulk now r.2 rest
    (r.1 :: rs.1, rs.2)

/-- Modelled from the spec: the classification of a non-nil remote-call
error into NotFound, Unauthorized, Transient or Other (section 6); the
worker engine and the machiner worker are not among the source files,
only the machiner tests are. -/
inductive CallErrorClass where
  | NotFound
  | Unauthorized
  | Transient
  | Other
  deriving DecidableEq, Repr

/-- Modelled from the spec: the result a worker run terminates with —
the distinguished terminate-permanently signal, a classified
remote-call error, or an ordinary handler error (sections 4.2 and 7). -/
inductive WorkerError where
  | ErrTerminateAgent
  | remoteCallError (c : CallErrorClass)
  | ordinaryError (msg : String)
  deriving DecidableEq, Repr

/-- Modelled from the spec: a remote-call error on the caller entity
classifies into the distinguished terminate signal exactly when it is
NotFound or Unauthorized (section 6). -/
def classifyRemoteCallError (ownEntity : Bool) (c : CallErrorClass) : WorkerError :=
  if ownEntity && (c == CallErrorClass.NotFound || c == CallErrorClass.Unauthorized) then
    WorkerError.ErrTerminateAgent
  else
    WorkerError.remoteCallError c

/-- Modelled from the spec: one SetUp or HandleChange step either
succeeds or fails with a worker error (section 4.2). -/
inductive HandlerStep where
  | ok
  | fail (e : WorkerError)
  deriving DecidableEq, Repr

/-- First failing step of a HandleChange sequence, if any. -/
def firstFailure : List HandlerStep → Option WorkerError
  | [] => none
  | HandlerStep.ok :: rest => firstFailure rest
  | HandlerStep.fail e :: _ => some e

/-- Modelled from the spec: the final result Wait returns — the SetUp
error if SetUp fails, otherwise the first HandleChange failure,
propagated verbatim, with the terminate signal yielded unchanged; none
means stopped without error (sections 4.2 and 7). -/
def waitResult (setUpStep : HandlerStep) (changes : List HandlerStep) : Option WorkerError :=
  match setUpStep with
  | HandlerStep.fail e => some e
  | HandlerStep.ok => firstFailure changes

namespace params

/-- Modelled from the spec: the structured error record carried in the
bulk results; its own declaration is not among the source files. -/
structure Error where
  Message : String
  Code : String
  deriving DecidableEq, Repr

/-- Modelled from the spec: leadership settings are a mapping from
string keys to string values (section 6); the Settings declaration is
not among the source files. -/
abbrev Settings := List (String × String)

/-- ClaimLeadershipParams from the params package: the parameters
needed for making a leadership claim. -/
structure ClaimLeadershipParams where
  ServiceTag : String
  UnitTag : String
  deriving DecidableEq, Repr

/-- ClaimLeadershipBulkParams from the params package: a collection of
parameters for making a bulk leadership claim. -/
structure ClaimLeadershipBulkParams where
  Params : List ClaimLeadershipParams
  deriving DecidableEq, Repr

/-- ClaimLeadershipResults from the params package: the results from
making a leadership claim; ClaimDurationInSec is a float64 in the
source. -/
structure ClaimLeadershipResults where
  ServiceTag : String
  ClaimDurationInSec : Float
  Error : Option Error
  deriving Repr

/-- ClaimLeadershipBulkResults from the params package: the collection
of results from a bulk leadership claim. -/
structure ClaimLeadershipBulkResults where
  Results : List ClaimLeadershipResults
  deriving Repr

/-- ReleaseLeadershipParams from the params package. -/
structure ReleaseLeadershipParams where
  ServiceTag : String
  UnitTag : String
  deriving DecidableEq, Repr

/-- ReleaseLeadershipBulkParams from the params package. -/
structure ReleaseLeadershipBulkParams where
  Params : List ReleaseLeadershipParams
  deriving DecidableEq, Repr

/-- GetLeadershipSettingsResult from the params package. -/
structure GetLeadershipSettingsResult where
  Settings : Settings
  Error : Option Error
  deriving DecidableEq, Repr

/-- GetLeadershipSettingsBulkResults from the params package. -/
structure GetLeadershipSettingsBulkResults where
  Results : List GetLeadershipSettingsResult
  deriving DecidableEq, Repr

/-- MergeLeadershipSettingsParam from the params package: the
parameters needed for merging in leadership settings. -/
structure MergeLeadershipSettingsParam where
  ServiceTag : String
  Settings : Settings
  deriving DecidableEq, Repr

/-- MergeLeadershipSettingsBulkParams from the params package: a
collection of parameters for a bulk merge of leadership settings. -/
structure MergeLeadershipSettingsBulkParams where
  Params : List MergeLeadershipSettingsParam
  deriving DecidableEq, Repr

end params

/-- MachineEntityName from state/api/apiclient.go: the entity name for
the machine with the given id. -/
def MachineEntityName (id : String) : String :=
  "machine-" ++ id

/-- Replacement of every occurrence of one character by another — the
strings.Replace call of UnitEntityName with a replacement count of -1,
specialized to its one-character pattern. -/
def replaceChar (old new : Char) : List Char → List Char
  | [] => []
  | c :: cs => (if c = old then new else c) :: replaceChar old new cs

/-- UnitEntityName from state/api/apiclient.go: the entity name for the
unit with the given name. -/
def UnitEntityName (unitName : String) : String :=
  "unit-" ++ String.mk (replaceChar '/' '-' unitName.data)

/-- Whether a path begins with the path separator. -/
def isRooted (path : String) : Bool :=
  match path.data with
  | [] => false
  | c :: _ => c = '/'

/-- Splitting a character list on the path separator, the way
strings.Split cuts a path into its segments. -/
def splitOnSlashAux : List Char → List Char → List String
  | [], acc => [String.mk acc.reverse]
  | c :: cs, acc =>
    if c = '/' then String.mk acc.reverse :: splitOnSlashAux cs []
    else splitOnSlashAux cs (c :: acc)

/-- The slash-separated segments of a path. -/
def splitOnSlash (s : String) : List String :=
  splitOnSlashAux s.data []

/-- Joining segments with the path separator, the way strings.Join
does. -/
def joinWithSlash : List String → String
  | [] => ""
  | [x] => x
  | x :: xs => x ++ "/" ++ joinWithSlash xs

/-- One step of the lexical Clean algorithm of the path package: empty
and dot segments are dropped, a dotdot segment pops the last pushed
element unless the stack holds only dotdots or the path is rooted at
the top, and any other segment is pushed. -/
def cleanStep (rooted : Bool) (stack : List String) (seg : String) : List String :=
  if seg = "" ∨ seg = "." then stack
  else if seg = ".." then
    match stack with
    | s :: rest => if s = ".." then seg :: stack else rest
    | [] => if rooted then [] else [".."]
  else seg :: stack

/-- Clean from the path/filepath package for slash-separated paths:
lexically simplifies the path, returning a dot for the empty result of
a relative path. -/
def pathClean (path : String) : String :=
  if path = "" then "."
  else
    let rooted := isRooted path
    let stack := (splitOnSlash path).foldl (cleanStep rooted) []
    let core := joinWithSlash stack.reverse
    if rooted then "/" ++ core
    else if core = "" then "." else core

/-- Join from the path/filepath package: drops leading empty elements,
joins the rest with the separator and cleans the result; the empty
string when every element is empty. -/
def filepathJoin (elems : List String) : String :=
  let rest := elems.dropWhile (fun e => e == "")
  if rest.isEmpty then "" else pathClean (joinWithSlash rest)

/-- Modelled from the source usage in the storage package: the two
fields of a BlockDevice that BlockDevicePath reads; the struct
declaration itself is not among the source files. -/
structure BlockDevice where
  DeviceName : String
  Serial : String
  deriving DecidableEq, Repr

/-- The diskByID constant of the storage package. -/
def diskByID : String := "/dev/disk/by-id"

/-- The diskByDeviceName constant of the storage package. -/
def diskByDeviceName : String := "/dev"

/-- BlockDevicePath from the storage package: the path to a block
device, based on the serial if available, otherwise the device name,
or an error if neither is set. -/
def BlockDevicePath (device : BlockDevice) : Except String String :=
  if device.Serial ≠ "" then
    Except.ok (filepathJoin [diskByID, device.Serial])
  else if device.DeviceName ≠ "" then
    Except.ok (filepathJoin [diskByDeviceName, device.DeviceName])
  else
    Except.error "could not determine path for block device"

/-- An HTTP request as the storage backend sees it: method, URL path,
parsed query values, declared content length and body. -/
structure HttpRequest where
  Method : String
  URLPath : String
  Query : List (String × String)
  ContentLength : Int
  Body : String
  deriving DecidableEq, Repr

/-- The response the backend writes: status code, body, and the
Location header used by HEAD responses. -/
structure HttpResponse where
  Status : Nat
  Body : String
  Location : String
  deriving DecidableEq, Repr

/-- Get on parsed query values: the first value set for the key, or
the empty string when the key is absent. -/
def queryGet (q : List (String × String)) (k : String) : String :=
  match q.find? (fun p => p.1 == k) with
  | some p => p.2
  | none => ""

/-- storageBackend from the httpstorage package: the backing store,
modelled as a mapping from storage names to contents, plus the
httpsBaseURL and authkey fields. -/
structure storageBackend where
  backend : List (String × String)
  httpsBaseURL : String
  authkey : String
  deriving DecidableEq, Repr

/-- authorised from the httpstorage package: the storage requires no
authorisation, or the request specifies the correct auth key. -/
def authorised (s : storageBackend) (req : HttpRequest) : Bool :=
  if s.authkey = "" then true
  else queryGet req.Query "authkey" == s.authkey

/-- handleGet from the httpstorage package: returns the stored file or
a 404 error; never modifies the store. -/
def handleGet (s : storageBackend) (req : HttpRequest) :
    HttpResponse × List (String × String) :=
  match s.backend.find? (fun p => p.1 == req.URLPath.drop 1) with
  | some p => (⟨200, p.2, ""⟩, s.backend)
  | none => (⟨404, "not found", ""⟩, s.backend)

/-- handleList from the httpstorage package: returns the names in the
store matching the prefix of the starred path; never modifies the
store. -/
def handleList (s : storageBackend) (req : HttpRequest) :
    HttpResponse × List (String × String) :=
  let pre := (req.URLPath.drop 1).dropRight 1
  let names := (s.backend.filter (fun p => p.1.startsWith pre)).map (fun p => p.1)
  (⟨200, String.intercalate "\n" names, ""⟩, s.backend)

/-- handleHead from the httpstorage package: returns the HTTPS URL for
the path in the Location header, or 405 when there is none. -/
def handleHead (s : storageBackend) (req : HttpRequest) :
    HttpResponse × List (String × String) :=
  if s.httpsBaseURL ≠ "" then (⟨200, "", s.httpsBaseURL ++ req.URLPath⟩, s.backend)
  else (⟨405, "method HEAD is not supported", ""⟩, s.backend)

/-- handlePut from the httpstorage package: rejects a negative content
length with 500, otherwise stores the body under the path and answers
201. -/
def handlePut (s : storageBackend) (req : HttpRequest) :
    HttpResponse × List (String × String) :=
  if req.ContentLength < 0 then
    (⟨500, "missing or invalid Content-Length header", ""⟩, s.backend)
  else
    (⟨201, "", ""⟩,
     (req.URLPath.drop 1, req.Body) :: s.backend.filter (fun p => p.1 != req.URLPath.drop 1))

/-- handleDelete from the httpstorage package: re-checks authorisation,
then removes the file from the store and answers 200. -/
def handleDelete (s : storageBackend) (req : HttpRequest) :
    HttpResponse × List (String × String) :=
  if ¬ authorised s req then (⟨401, "unauthorised access", ""⟩, s.backend)
  else (⟨200, "", ""⟩, s.backend.filter (fun p => p.1 != req.URLPath.drop 1))

/-- ServeHTTP from the httpstorage package: a modifying method is
rejected with 401 when an HTTPS backend exists to handle it or the
request is not authorised; otherwise the request dispatches on its
method, with unsupported methods answered 405. -/
def ServeHTTP (s : storageBackend) (req : HttpRequest) :
    HttpResponse × List (String × String) :=
  if (req.Method = "PUT" ∨ req.Method = "DELETE") ∧
      (s.httpsBaseURL ≠ "" ∨ ¬ authorised s req) then
    (⟨401, "unauthorised access", ""⟩, s.backend)
  else if req.Method = "GET" then
    if req.URLPath.endsWith "*" then handleList s req else handleGet s req
  else if req.Method = "HEAD" then handleHead s req
  else if req.Method = "PUT" then handlePut s req
  else if req.Method = "DELETE" then handleDelete s req
  else (⟨405, "method " ++ req.Method ++ " is not supported", ""⟩, s.backend)

theorem findLease_setLease (st : LeaseState) (serviceID holderUnitID : String) (expiry : Nat) :
    findLease (setLease st serviceID holderUnitID expiry) serviceID =
      some ⟨serviceID, holderUnitID, expiry⟩ := by
  simp [findLease, setLease, List.find?]

theorem claim_ok_post_lease (maxDuration now : Nat) (serviceID unitID : String)
    (d : Nat) (st : LeaseState) (g : Nat)
    (h : (ClaimLeadership maxDuration now serviceID unitID d st).1 = Except.ok g) :
    ∃ e, findLease (ClaimLeadership maxDuration now serviceID unitID d st).2 serviceID =
      some ⟨serviceID, unitID, e⟩ := by
  unfold ClaimLeadership at h ⊢
  cases hf : findLease st serviceID with
  | none => exact ⟨now + min d maxDuration, by simp [hf, findLease_setLease]⟩
  | some l =>
    obtain ⟨sid, holder, exp⟩ := l
    by_cases h1 : holder = "" ∨ exp ≤ now
    · exact ⟨now + min d maxDuration, by simp [hf, h1, findLease_setLease]⟩
    · by_cases h2 : holder = unitID
      · subst h2
        exact ⟨max exp (now + min d maxDuration), by simp [hf, h1, findLease_setLease]⟩
      · rw [hf] at h
        simp [h1, h2] at h

/-- C1: for every ServiceID and every reachable state of the Leadership
Lease Coordinator, at most one unitID holds an unexpired lease on that
service at any observed instant, and a claim by a different unit while
another unit holds an unexpired lease fails with LeaseHeld and leaves
the state, hence the holder, unchanged. -/
theorem leadership_single_holder (st : LeaseState) (_hreach : Reachable st)
    (t : Nat) (serviceID : String) :
    (∀ u1 u2 : String, holdsLease st t serviceID u1 = true →
        holdsLease st t serviceID u2 = true → u1 = u2) ∧
    (∀ (maxDuration : Nat) (holder claimant : String) (d : Nat),
        holdsLease st t serviceID holder = true → claimant ≠ holder →
        ClaimLeadership maxDuration t serviceID claimant d st =
          (Except.error LeaseError.LeaseHeld, st)) := by
  constructor
  · intro u1 u2 h1 h2
    unfold holdsLease at h1 h2
    cases hf : findLease st serviceID with
    | none => rw [hf] at h1; simp at h1
    | some l =>
      rw [hf] at h1 h2
      simp only [Bool.and_eq_true, beq_iff_eq, bne_iff_ne, decide_eq_true_eq] at h1 h2
      exact h1.1.1.symm.trans h2.1.1
  · intro maxDuration holder claimant d hh hne
    unfold holdsLease at hh
    cases hf : findLease st serviceID with
    | none => rw [hf] at hh; simp at hh
    | some l =>
      obtain ⟨sid, hold, exp⟩ := l
      rw [hf] at hh
      simp only [Bool.and_eq_true, beq_iff_eq, bne_iff_ne, decide_eq_true_eq] at hh
      obtain ⟨⟨hh1, hh2⟩, hh3⟩ := hh
      subst hh1
      have h4 : ¬ hold = claimant := fun hc => hne hc.symm
      unfold ClaimLeadership
      rw [hf]
      simp [hh2, h4, Nat.not_le.mpr hh3]

/-- Witness for C1: unit u1 claims service s in the empty state; at
instant 10 a claim by u2 fails with LeaseHeld and leaves the state
unchanged. -/
theorem leadership_single_holder_witness :
    ClaimLeadership 100 10 "s" "u2" 30 (ClaimLeadership 100 0 "s" "u1" 50 ⟨[], []⟩).2 =
      (Except.error LeaseError.LeaseHeld, (ClaimLeadership 100 0 "s" "u1" 50 ⟨[], []⟩).2) :=
  (leadership_single_holder (ClaimLeadership 100 0 "s" "u1" 50 ⟨[], []⟩).2
      (Reachable.claim 100 0 "s" "u1" 50 ⟨[], []⟩ Reachable.init) 10 "s").2
    100 "u1" "u2" 30 (by decide) (by decide)

/-- C2: a successful claim followed, before expiry, by a claim from the
same holder is a renewal: the second claim succeeds and the resulting
expiry is at least the previous expiry, whatever the second requested
duration is — renewal never shortens an active lease. -/
theorem claim_renewal_never_shortens (maxDuration t1 t2 d1 d2 g1 : Nat)
    (serviceID unitID : String) (st : LeaseState)
    (hu : unitID ≠ "")
    (h1 : (ClaimLeadership maxDuration t1 serviceID unitID d1 st).1 = Except.ok g1)
    (l1 : ServiceLeadershipLease)
    (hl : findLease (ClaimLeadership maxDuration t1 serviceID unitID d1 st).2 serviceID =
      some l1)
    (hbefore : t2 < l1.ExpiryTimestamp) :
    ∃ g2 l2,
      (ClaimLeadership maxDuration t2 serviceID unitID d2
          (ClaimLeadership maxDuration t1 serviceID unitID d1 st).2).1 = Except.ok g2 ∧
      findLease (ClaimLeadership maxDuration t2 serviceID unitID d2
          (ClaimLeadership maxDuration t1 serviceID unitID d1 st).2).2 serviceID = some l2 ∧
      l1.ExpiryTimestamp ≤ l2.ExpiryTimestamp := by
  obtain ⟨e, he⟩ := claim_ok_post_lease maxDuration t1 serviceID unitID d1 st g1 h1
  rw [he] at hl
  cases hl
  generalize hst1 : (ClaimLeadership maxDuration t1 serviceID unitID d1 st).2 = st1 at he ⊢
  have hrun : ClaimLeadership maxDuration t2 serviceID unitID d2 st1 =
      (Except.ok (min d2 maxDuration),
       setLease st1 serviceID unitID (max e (t2 + min d2 maxDuration))) := by
    unfold ClaimLeadership
    rw [he]
    simp [hu, Nat.not_le.mpr hbefore]
  refine ⟨min d2 maxDuration, ⟨serviceID, unitID, max e (t2 + min d2 maxDuration)⟩, ?_, ?_, ?_⟩
  · rw [hrun]
  · rw [hrun]
    exact findLease_setLease _ _ _ _
  · exact le_max_left _ _

/-- Witness for C2: u1 claims s for 50 at instant 0 and renews for only
5 at instant 10; the renewal succeeds and the expiry does not shrink
below the original expiry 50. -/
theorem claim_renewal_never_shortens_witness :
    ∃ g2 l2,
      (ClaimLeadership 100 10 "s" "u1" 5 (ClaimLeadership 100 0 "s" "u1" 50 ⟨[], []⟩).2).1 =
        Except.ok g2 ∧
      findLease (ClaimLeadership 100 10 "s" "u1" 5
          (ClaimLeadership 100 0 "s" "u1" 50 ⟨[], []⟩).2).2 "s" = some l2 ∧
      (⟨"s", "u1", 50⟩ : ServiceLeadershipLease).ExpiryTimestamp ≤ l2.ExpiryTimestamp :=
  claim_renewal_never_shortens 100 0 10 50 5 50 "s" "u1" ⟨[], []⟩ (by decide) (by rfl)
    ⟨"s", "u1", 50⟩ (by rfl) (by decide)

theorem settingsLookup_cons (p : String × String) (rest : List (String × String)) (k : String) :
    settingsLookup (p :: rest) k = if p.1 = k then some p.2 else settingsLookup rest k := by
  by_cases h : p.1 = k <;> simp [settingsLookup, List.find?_cons, h]

theorem settingsErase_cons (p : String × String) (rest : List (String × String)) (k : String) :
    settingsErase (p :: rest) k =
      if p.1 = k then settingsErase rest k else p :: settingsErase rest k := by
  by_cases h : p.1 = k <;> simp [settingsErase, List.filter_cons, h]

theorem settingsLookup_erase_self (m : List (String × String)) (k : String) :
    settingsLookup (settingsErase m k) k = none := by
  induction m with
  | nil => rfl
  | cons p rest ih =>
    rw [settingsErase_cons]
    by_cases h : p.1 = k
    · simpa [h] using ih
    · rw [if_neg h, settingsLookup_cons, if_neg h]
      exact ih

theorem settingsLookup_erase_ne (m : List (String × String)) (k k1 : String) (h : k1 ≠ k) :
    settingsLookup (settingsErase m k) k1 = settingsLookup m k1 := by
  induction m with
  | nil => rfl
  | cons p rest ih =>
    rw [settingsErase_cons, settingsLookup_cons]
    by_cases hp : p.1 = k
    · rw [if_pos hp]
      have hp1 : ¬ p.1 = k1 := by
        intro he
        rw [he] at hp
        exact h hp
      rw [if_neg hp1]
      exact ih
    · rw [if_neg hp, settingsLookup_cons]
      by_cases hp1 : p.1 = k1
      · rw [if_pos hp1, if_pos hp1]
      · rw [if_neg hp1, if_neg hp1]
        exact ih

theorem settingsLookup_insert_self (m : List (String × String)) (k v : String) :
    settingsLookup (settingsInsert m k v) k = some v := by
  rw [settingsInsert, settingsLookup_cons, if_pos rfl]

theorem settingsLookup_insert_ne (m : List (String × String)) (k k1 v : String) (h : k1 ≠ k) :
    settingsLookup (settingsInsert m k v) k1 = settingsLookup m k1 := by
  rw [settingsInsert, settingsLookup_cons, if_neg (fun he => h he.symm)]
  exact settingsLookup_erase_ne m k k1 h

theorem mergeSettings_cons (current : List (String × String)) (kv : String × String)
    (rest : List (String × String)) :
    mergeSettings current (kv :: rest) =
      mergeSettings (if kv.2 = "" then settingsErase current kv.1
                     else settingsInsert current kv.1 kv.2) rest := rfl

theorem mergeSettings_lookup_of_not_mem (updates : List (String × String)) :
    ∀ (current : List (String × String)) (k : String), (∀ p ∈ updates, p.1 ≠ k) →
    settingsLookup (mergeSettings current updates) k = settingsLookup current k := by
  induction updates with
  | nil => intro current k _; rfl
  | cons kv rest ih =>
    intro current k h
    have hk : kv.1 ≠ k := h kv (List.mem_cons_self _ _)
    rw [mergeSettings_cons, ih _ k (fun p hp => h p (List.mem_cons_of_mem _ hp))]
    by_cases hv : kv.2 = ""
    · rw [if_pos hv]
      exact settingsLookup_erase_ne current kv.1 k (fun he => hk he.symm)
    · rw [if_neg hv]
      exact settingsLookup_insert_ne current kv.1 k kv.2 (fun he => hk he.symm)

theorem mergeSettings_lookup (updates : List (String × String)) :
    ∀ (current : List (String × String)) (k : String), (updates.map Prod.fst).Nodup →
    settingsLookup (mergeSettings current updates) k =
      match settingsLookup updates k with
      | some v => if v = "" then none else some v
      | none => settingsLookup current k := by
  induction updates with
  | nil => intro current k _; rfl
  | cons kv rest ih =>
    intro current k hnd
    simp only [List.map_cons, List.nodup_cons] at hnd
    obtain ⟨hk1, hk2⟩ := hnd
    rw [mergeSettings_cons, settingsLookup_cons]
    by_cases hkk : kv.1 = k
    · subst hkk
      have hnotmem : ∀ p ∈ rest, p.1 ≠ kv.1 := by
        intro p hp hpeq
        exact hk1 (hpeq ▸ List.mem_map_of_mem Prod.fst hp)
      rw [mergeSettings_lookup_of_not_mem rest _ kv.1 hnotmem, if_pos rfl]
      show settingsLookup (if kv.2 = "" then settingsErase current kv.1
          else settingsInsert current kv.1 kv.2) kv.1 =
        if kv.2 = "" then none else some kv.2
      by_cases hv : kv.2 = ""
      · rw [if_pos hv, if_pos hv]
        exact settingsLookup_erase_self current kv.1
      · rw [if_neg hv, if_neg hv]
        exact settingsLookup_insert_self current kv.1 kv.2
    · rw [if_neg hkk, ih _ k hk2]
      have hne : k ≠ kv.1 := fun he => hkk he.symm
      cases hlr : settingsLookup rest k with
      | some v => rfl
      | none =>
        by_cases hv : kv.2 = ""
        · rw [if_pos hv]
          exact settingsLookup_erase_ne current kv.1 k hne
        · rw [if_neg hv]
          exact settingsLookup_insert_ne current kv.1 k kv.2 hne

theorem getSettings_putSettings (st : LeaseState) (serviceID : String)
    (m : List (String × String)) :
    GetLeadershipSettings (putSettings st serviceID m) serviceID = m := by
  simp [GetLeadershipSettings, putSettings, List.find?_cons]

/-- C3: MergeLeadershipSettings by the current holder performs a
field-wise merge — a key present in updates with a non-empty value
overwrites, a key absent from updates is unchanged, a key mapped to the
empty string is deleted — and merging by a unit that does not hold the
lease fails with NotLeader and leaves the state unchanged. -/
theorem merge_leadership_settings_fieldwise (now : Nat)
    (serviceID unitID otherUnit : String) (updates : List (String × String))
    (st : LeaseState) (k : String)
    (hnodup : (updates.map Prod.fst).Nodup)
    (hhold : holdsLease st now serviceID unitID = true)
    (hnot : holdsLease st now serviceID otherUnit = false) :
    (MergeLeadershipSettings now serviceID unitID updates st).1 = Except.ok () ∧
    settingsLookup (GetLeadershipSettings
        (MergeLeadershipSettings now serviceID unitID updates st).2 serviceID) k =
      (match settingsLookup updates k with
       | some v => if v = "" then none else some v
       | none => settingsLookup (GetLeadershipSettings st serviceID) k) ∧
    MergeLeadershipSettings now serviceID otherUnit updates st =
      (Except.error LeaseError.NotLeader, st) := by
  refine ⟨?_, ?_, ?_⟩
  · simp [MergeLeadershipSettings, hhold]
  · simp only [MergeLeadershipSettings, hhold, if_pos]
    rw [getSettings_putSettings]
    exact mergeSettings_lookup updates (GetLeadershipSettings st serviceID) k hnodup
  · simp [MergeLeadershipSettings, hnot]

/-- Witness for C3: u1 holds service s and merges two updates, one
setting key a to 2 and one mapping key b to the empty string; key a
reads back as 2 and a merge by the non-holder u2 fails with NotLeader. -/
theorem merge_leadership_settings_fieldwise_witness :
    (MergeLeadershipSettings 10 "s" "u1" [("a", "2"), ("b", "")]
        (ClaimLeadership 100 0 "s" "u1" 50 ⟨[], []⟩).2).1 = Except.ok () ∧
    settingsLookup (GetLeadershipSettings
        (MergeLeadershipSettings 10 "s" "u1" [("a", "2"), ("b", "")]
          (ClaimLeadership 100 0 "s" "u1" 50 ⟨[], []⟩).2).2 "s") "a" =
      (match settingsLookup [("a", "2"), ("b", "")] "a" with
       | some v => if v = "" then none else some v
       | none => settingsLookup (GetLeadershipSettings
           (ClaimLeadership 100 0 "s" "u1" 50 ⟨[], []⟩).2 "s") "a") ∧
    MergeLeadershipSettings 10 "s" "u2" [("a", "2"), ("b", "")]
        (ClaimLeadership 100 0 "s" "u1" 50 ⟨[], []⟩).2 =
      (Except.error LeaseError.NotLeader, (ClaimLeadership 100 0 "s" "u1" 50 ⟨[], []⟩).2) :=
  merge_leadership_settings_fieldwise 10 "s" "u1" "u2" [("a", "2"), ("b", "")]
    (ClaimLeadership 100 0 "s" "u1" 50 ⟨[], []⟩).2 "a" (by decide) (by decide) (by decide)

theorem claim_error_state_unchanged (maxDuration now : Nat) (serviceID unitID : String)
    (d : Nat) (st : LeaseState) (e : LeaseError)
    (h : (ClaimLeadership maxDuration now serviceID unitID d st).1 = Except.error e) :
    (ClaimLeadership maxDuration now serviceID unitID d st).2 = st := by
  unfold ClaimLeadership at h ⊢
  cases hf : findLease st serviceID with
  | none => rw [hf] at h; simp at h
  | some l =>
    obtain ⟨sid, hold, exp⟩ := l
    rw [hf] at h
    by_cases h1 : hold = "" ∨ exp ≤ now
    · simp [h1] at h
    · by_cases h2 : hold = unitID
      · subst h2
        simp [h1] at h
      · simp [h1, h2]

theorem release_error_state_unchanged (now : Nat) (serviceID unitID : String)
    (st : LeaseState) (e : LeaseError)
    (h : (ReleaseLeadership now serviceID unitID st).1 = Except.error e) :
    (ReleaseLeadership now serviceID unitID st).2 = st := by
  unfold ReleaseLeadership at h ⊢
  cases hf : findLease st serviceID with
  | none => rfl
  | some l =>
    obtain ⟨sid, hold, exp⟩ := l
    by_cases h1 : hold = "" ∨ exp ≤ now
    · simp [h1]
    · rw [hf] at h
      by_cases h2 : hold = unitID
      · subst h2
        simp [h1] at h
      · simp [h1, h2]

theorem findLease_filter (l : List ServiceLeadershipLease) (svc svc1 : String)
    (h : svc1 ≠ svc) :
    (l.filter (fun x => x.ServiceID != svc)).find? (fun x => x.ServiceID == svc1) =
      l.find? (fun x => x.ServiceID == svc1) := by
  induction l with
  | nil => rfl
  | cons a rest ih =>
    by_cases ha : a.ServiceID = svc
    · have hf : (svc == svc1) = false := by
        simp [Ne.symm h]
      simp [List.filter_cons, List.find?_cons, ha, hf, ih]
    · by_cases hp : a.ServiceID = svc1
      · simp [List.filter_cons, List.find?_cons, ha, hp, h]
      · simp [List.filter_cons, List.find?_cons, ha, hp, ih]

theorem findLease_setLease_ne (st : LeaseState) (svc u : String) (e : Nat) (svc1 : String)
    (h : svc1 ≠ svc) :
    findLease (setLease st svc u e) svc1 = findLease st svc1 := by
  unfold findLease setLease
  have hf : ((⟨svc, u, e⟩ : ServiceLeadershipLease).ServiceID == svc1) = false := by
    simp [Ne.symm h]
  simp only [List.find?_cons, hf]
  exact findLease_filter st.leases svc svc1 h

theorem findLease_clearLease_ne (st : LeaseState) (svc svc1 : String) (h : svc1 ≠ svc) :
    findLease (clearLease st svc) svc1 = findLease st svc1 := by
  unfold findLease clearLease
  exact findLease_filter st.leases svc svc1 h

theorem claim_preserves_other_services (maxDuration now : Nat) (svc u : String) (d : Nat)
    (st : LeaseState) (svc1 : String) (h : svc1 ≠ svc) :
    findLease (ClaimLeadership maxDuration now svc u d st).2 svc1 = findLease st svc1 := by
  unfold ClaimLeadership
  cases hf : findLease st svc with
  | none => exact findLease_setLease_ne st svc u _ svc1 h
  | some l =>
    obtain ⟨sid, hold, exp⟩ := l
    by_cases h1 : hold = "" ∨ exp ≤ now
    · simp only [h1, if_pos]
      exact findLease_setLease_ne st svc u _ svc1 h
    · by_cases h2 : hold = u
      · subst h2
        simp [h1]
        exact findLease_setLease_ne st svc hold _ svc1 h
      · simp [h1, h2]

theorem release_preserves_other_services (now : Nat) (svc u : String)
    (st : LeaseState) (svc1 : String) (h : svc1 ≠ svc) :
    findLease (ReleaseLeadership now svc u st).2 svc1 = findLease st svc1 := by
  unfold ReleaseLeadership
  cases hf : findLease st svc with
  | none => rfl
  | some l =>
    obtain ⟨sid, hold, exp⟩ := l
    by_cases h1 : hold = "" ∨ exp ≤ now
    · simp [h1]
    · by_cases h2 : hold = u
      · subst h2
        simp [h1]
        exact findLease_clearLease_ne st svc svc1 h
      · simp [h1, h2]

theorem claim_result_congr (maxDuration now : Nat) (svc u : String) (d : Nat)
    (st1 st2 : LeaseState) (h : findLease st1 svc = findLease st2 svc) :
    (ClaimLeadership maxDuration now svc u d st1).1 =
      (ClaimLeadership maxDuration now svc u d st2).1 := by
  unfold ClaimLeadership
  rw [h]
  cases hf : findLease st2 svc with
  | none => rfl
  | some l =>
    obtain ⟨sid, hold, exp⟩ := l
    by_cases h1 : hold = "" ∨ exp ≤ now
    · simp [h1]
    · by_cases h2 : hold = u
      · subst h2
        simp [h1]
      · simp [h1, h2]

theorem release_result_congr (now : Nat) (svc u : String)
    (st1 st2 : LeaseState) (h : findLease st1 svc = findLease st2 svc) :
    (ReleaseLeadership now svc u st1).1 = (ReleaseLeadership now svc u st2).1 := by
  unfold ReleaseLeadership
  rw [h]
  cases hf : findLease st2 svc with
  | none => rfl
  | some l =>
    obtain ⟨sid, hold, exp⟩ := l
    by_cases h1 : hold = "" ∨ exp ≤ now
    · simp [h1]
    · by_cases h2 : hold = u
      · subst h2
        simp [h1]
      · simp [h1, h2]

theorem claimBulk_map_of_distinct (maxDuration now : Nat) :
    ∀ (ps : List (String × String × Nat)) (st : LeaseState),
    (ps.map (fun p => p.1)).Nodup →
    (ClaimLeadershipBulk maxDuration now st ps).1 =
      ps.map (fun p => (ClaimLeadership maxDuration now p.1 p.2.1 p.2.2 st).1) := by
  intro ps
  induction ps with
  | nil => intro st _; rfl
  | cons p rest ih =>
    intro st hnd
    simp only [List.map_cons, List.nodup_cons] at hnd
    obtain ⟨hp, hrest⟩ := hnd
    simp only [ClaimLeadershipBulk, List.map_cons]
    congr 1
    rw [ih _ hrest]
    apply List.map_congr_left
    intro q hq
    have hne : q.1 ≠ p.1 := by
      intro he
      apply hp
      rw [← he]
      exact List.mem_map_of_mem _ hq
    exact claim_result_congr maxDuration now q.1 q.2.1 q.2.2 _ st
      (claim_preserves_other_services maxDuration now p.1 p.2.1 p.2.2 st q.1 hne)

theorem releaseBulk_map_of_distinct (now : Nat) :
    ∀ (ps : List (String × String)) (st : LeaseState),
    (ps.map (fun p => p.1)).Nodup →
    (ReleaseLeadershipBulk now st ps).1 =
      ps.map (fun p => (ReleaseLeadership now p.1 p.2 st).1) := by
  intro ps
  induction ps with
  | nil => intro st _; rfl
  | cons p rest ih =>
    intro st hnd
    simp only [List.map_cons, List.nodup_cons] at hnd
    obtain ⟨hp, hrest⟩ := hnd
    simp only [ReleaseLeadershipBulk, List.map_cons]
    congr 1
    rw [ih _ hrest]
    apply List.map_congr_left
    intro q hq
    have hne : q.1 ≠ p.1 := by
      intro he
      apply hp
      rw [← he]
      exact List.mem_map_of_mem _ hq
    exact release_result_congr now q.1 q.2 _ st
      (release_preserves_other_services now p.1 p.2 st q.1 hne)

/-- C5: every bulk claim or release request with n elements yields
exactly n per-element outcomes; a failing element never blocks or
invalidates the processing of the other elements — a failed element
leaves the state untouched, so the remaining outcomes are exactly those
of the bulk request without it — and when the elements address distinct
services every outcome equals the outcome of the corresponding single
operation on the incoming state, independent of the other elements. -/
theorem bulk_outcomes_independent (maxDuration now : Nat) :
    (∀ (st : LeaseState) (ps : List (String × String × Nat)),
      (ClaimLeadershipBulk maxDuration now st ps).1.length = ps.length) ∧
    (∀ (st : LeaseState) (ps : List (String × String)),
      (ReleaseLeadershipBulk now st ps).1.length = ps.length) ∧
    (∀ (st : LeaseState) (p : String × String × Nat) (ps : List (String × String × Nat))
      (e : LeaseError),
      (ClaimLeadership maxDuration now p.1 p.2.1 p.2.2 st).1 = Except.error e →
      (ClaimLeadershipBulk maxDuration now st (p :: ps)).1 =
        Except.error e :: (ClaimLeadershipBulk maxDuration now st ps).1) ∧
    (∀ (st : LeaseState) (p : String × String) (ps : List (String × String)) (e : LeaseError),
      (ReleaseLeadership now p.1 p.2 st).1 = Except.error e →
      (ReleaseLeadershipBulk now st (p :: ps)).1 =
        Except.error e :: (ReleaseLeadershipBulk now st ps).1) ∧
    (∀ (st : LeaseState) (ps : List (String × String × Nat)),
      (ps.map (fun p => p.1)).Nodup →
      (ClaimLeadershipBulk maxDuration now st ps).1 =
        ps.map (fun p => (ClaimLeadership maxDuration now p.1 p.2.1 p.2.2 st).1)) ∧
    (∀ (st : LeaseState) (ps : List (String × String)),
      (ps.map (fun p => p.1)).Nodup →
      (ReleaseLeadershipBulk now st ps).1 =
        ps.map (fun p => (ReleaseLeadership now p.1 p.2 st).1)) := by
  refine ⟨?_, ?_, ?_, ?_, ?_, ?_⟩
  · intro st ps
    induction ps generalizing st with
    | nil => rfl
    | cons p rest ih => simp [ClaimLeadershipBulk, ih]
  · intro st ps
    induction ps generalizing st with
    | nil => rfl
    | cons p rest ih => simp [ReleaseLeadershipBulk, ih]
  · intro st p ps e h
    have hs := claim_error_state_unchanged maxDuration now p.1 p.2.1 p.2.2 st e h
    simp [ClaimLeadershipBulk, h, hs]
  · intro st p ps e h
    have hs := release_error_state_unchanged now p.1 p.2 st e h
    simp [ReleaseLeadershipBulk, h, hs]
  · intro st ps hnd
    exact claimBulk_map_of_distinct maxDuration now ps st hnd
  · intro st ps hnd
    exact releaseBulk_map_of_distinct now ps st hnd

/-- Witness for C5: with service s held by u1, a bulk claim whose first
element is a failing claim by u2 still processes the second element,
whose outcome is exactly that of the bulk request without the failing
element. -/
theorem bulk_outcomes_independent_witness :
    (ClaimLeadershipBulk 100 0 (ClaimLeadership 100 0 "s" "u1" 50 ⟨[], []⟩).2
        [("s", "u2", 30), ("t", "u3", 10)]).1 =
      Except.error LeaseError.LeaseHeld ::
        (ClaimLeadershipBulk 100 0 (ClaimLeadership 100 0 "s" "u1" 50 ⟨[], []⟩).2
          [("t", "u3", 10)]).1 :=
  (bulk_outcomes_independent 100 0).2.2.1 (ClaimLeadership 100 0 "s" "u1" 50 ⟨[], []⟩).2
    ("s", "u2", 30) [("t", "u3", 10)] LeaseError.LeaseHeld (by rfl)

theorem firstFailure_ok_prefix (e : WorkerError) (post : List HandlerStep) :
    ∀ pre : List HandlerStep, (∀ s ∈ pre, s = HandlerStep.ok) →
    firstFailure (pre ++ HandlerStep.fail e :: post) = some e := by
  intro pre
  induction pre with
  | nil => intro _; rfl
  | cons s rest ih =>
    intro h
    have hs : s = HandlerStep.ok := h s (List.mem_cons_self _ _)
    subst hs
    exact ih (fun t ht => h t (List.mem_cons_of_mem _ ht))

/-- C4: a worker whose remote call for its own entity returns NotFound
or Unauthorized fails with the distinguished terminate signal and Wait
returns exactly that signal, not a masked or wrapped error; ordinary
SetUp and HandleChange errors are propagated to Wait verbatim. -/
theorem worker_terminate_signal (c : CallErrorClass) (pre post : List HandlerStep)
    (e : WorkerError) (msg : String)
    (hc : c = CallErrorClass.NotFound ∨ c = CallErrorClass.Unauthorized)
    (hpre : ∀ s ∈ pre, s = HandlerStep.ok) :
    classifyRemoteCallError true c = WorkerError.ErrTerminateAgent ∧
    waitResult HandlerStep.ok
        (pre ++ HandlerStep.fail (classifyRemoteCallError true c) :: post) =
      some WorkerError.ErrTerminateAgent ∧
    waitResult (HandlerStep.fail e) post = some e ∧
    waitResult HandlerStep.ok
        (pre ++ HandlerStep.fail (WorkerError.ordinaryError msg) :: post) =
      some (WorkerError.ordinaryError msg) := by
  have hclass : classifyRemoteCallError true c = WorkerError.ErrTerminateAgent := by
    cases hc with
    | inl h => subst h; rfl
    | inr h => subst h; rfl
  refine ⟨hclass, ?_, rfl, ?_⟩
  · rw [hclass]
    exact firstFailure_ok_prefix _ post pre hpre
  · exact firstFailure_ok_prefix _ post pre hpre

/-- Witness for C4: a NotFound remote-call error on the caller entity,
after one successful HandleChange, makes Wait return exactly the
terminate signal; a SetUp failure reaches Wait verbatim. -/
theorem worker_terminate_signal_witness :
    classifyRemoteCallError true CallErrorClass.NotFound =
      WorkerError.ErrTerminateAgent ∧
    waitResult HandlerStep.ok
        ([HandlerStep.ok] ++
          HandlerStep.fail (classifyRemoteCallError true CallErrorClass.NotFound) :: []) =
      some WorkerError.ErrTerminateAgent ∧
    waitResult (HandlerStep.fail (WorkerError.ordinaryError "boom")) [] =
      some (WorkerError.ordinaryError "boom") ∧
    waitResult HandlerStep.ok
        ([HandlerStep.ok] ++ HandlerStep.fail (WorkerError.ordinaryError "boom") :: []) =
      some (WorkerError.ordinaryError "boom") :=
  worker_terminate_signal CallErrorClass.NotFound [HandlerStep.ok] []
    (WorkerError.ordinaryError "boom") "boom" (Or.inl rfl) (by decide)

/-- C6: the exposed bulk request and response shapes are field-exact —
a ClaimLeadershipBulkParams value is determined by its Params list, a
ClaimLeadershipParams by ServiceTag and UnitTag alone, a
ClaimLeadershipResults by ServiceTag, the floating-point
ClaimDurationInSec and Error alone, a ClaimLeadershipBulkResults by its
Results list, and a MergeLeadershipSettingsBulkParams by its Params
list of ServiceTag-and-Settings records. -/
theorem bulk_shapes_field_exact :
    (∀ x y : params.ClaimLeadershipBulkParams, x = y ↔ x.Params = y.Params) ∧
    (∀ x y : params.ClaimLeadershipParams,
      x = y ↔ x.ServiceTag = y.ServiceTag ∧ x.UnitTag = y.UnitTag) ∧
    (∀ x y : params.ClaimLeadershipResults,
      x = y ↔ x.ServiceTag = y.ServiceTag ∧
        x.ClaimDurationInSec = y.ClaimDurationInSec ∧ x.Error = y.Error) ∧
    (∀ x y : params.ClaimLeadershipBulkResults, x = y ↔ x.Results = y.Results) ∧
    (∀ x y : params.MergeLeadershipSettingsParam,
      x = y ↔ x.ServiceTag = y.ServiceTag ∧ x.Settings = y.Settings) ∧
    (∀ x y : params.MergeLeadershipSettingsBulkParams, x = y ↔ x.Params = y.Params) := by
  refine ⟨?_, ?_, ?_, ?_, ?_, ?_⟩ <;>
    intro x y <;> cases x <;> cases y <;> simp

theorem replaceChar_eq_map (old new : Char) (l : List Char) :
    replaceChar old new l = l.map (fun c => if c = old then new else c) := by
  induction l with
  | nil => rfl
  | cons c cs ih => simp [replaceChar, ih]

/-- C7: entity tags have the kind-dash-id form — MachineEntityName id
is the string machine- followed by the id, and UnitEntityName unitName
is unit- followed by the unit name with every slash character replaced
by a dash. -/
theorem entity_name_forms (id unitName : String) :
    MachineEntityName id = "machine-" ++ id ∧
    UnitEntityName unitName =
      "unit-" ++ String.mk (unitName.data.map (fun c => if c = '/' then '-' else c)) := by
  refine ⟨rfl, ?_⟩
  rw [UnitEntityName, replaceChar_eq_map]

theorem string_data_append (s t : String) : (s ++ t).data = s.data ++ t.data := by
  cases s
  cases t
  rfl

theorem replaceChar_inj (l1 : List Char) :
    ∀ l2 : List Char, '-' ∉ l1 → '-' ∉ l2 →
    replaceChar '/' '-' l1 = replaceChar '/' '-' l2 → l1 = l2 := by
  induction l1 with
  | nil =>
    intro l2 _ _ h
    cases l2 with
    | nil => rfl
    | cons b bs => simp [replaceChar] at h
  | cons a as ih =>
    intro l2 h1 h2 h
    cases l2 with
    | nil => simp [replaceChar] at h
    | cons b bs =>
      simp only [replaceChar, List.cons.injEq] at h
      obtain ⟨hh, ht⟩ := h
      have ha : a ≠ '-' := by
        intro he
        apply h1
        rw [he]
        exact List.mem_cons_self _ _
      have hb : b ≠ '-' := by
        intro he
        apply h2
        rw [he]
        exact List.mem_cons_self _ _
      have haa : a = b := by
        by_cases ca : a = '/'
        · by_cases cb : b = '/'
          · rw [ca, cb]
          · rw [if_pos ca, if_neg cb] at hh
            exact absurd hh.symm hb
        · by_cases cb : b = '/'
          · rw [if_neg ca, if_pos cb] at hh
            exact absurd hh ha
          · rw [if_neg ca, if_neg cb] at hh
            exact hh
      have h1t : '-' ∉ as := fun hm => h1 (List.mem_cons_of_mem _ hm)
      have h2t : '-' ∉ bs := fun hm => h2 (List.mem_cons_of_mem _ hm)
      rw [haa, ih bs h1t h2t ht]

/-- Counterexample to C9 as stated: the distinct unit names a/b and a-b
map to the same entity name, so UnitEntityName is not injective on all
unit names. -/
theorem unit_entity_name_collision :
    UnitEntityName "a/b" = UnitEntityName "a-b" ∧ ("a/b" : String) ≠ "a-b" :=
  ⟨by decide, by decide⟩

/-- C9 (amended): for every two distinct unit names in which the dash
character does not occur, UnitEntityName returns distinct strings, and
the entity name of a unit always differs from the entity name of every
machine. -/
theorem entity_names_unique (u1 u2 unitName id : String)
    (h1 : '-' ∉ u1.data) (h2 : '-' ∉ u2.data) (hne : u1 ≠ u2) :
    UnitEntityName u1 ≠ UnitEntityName u2 ∧
    UnitEntityName unitName ≠ MachineEntityName id := by
  constructor
  · intro h
    apply hne
    have hd : (UnitEntityName u1).data = (UnitEntityName u2).data := congrArg String.data h
    rw [UnitEntityName, UnitEntityName, string_data_append, string_data_append] at hd
    have hA := List.append_cancel_left hd
    exact String.ext (replaceChar_inj u1.data u2.data h1 h2 hA)
  · intro h
    have hd : (UnitEntityName unitName).data = (MachineEntityName id).data :=
      congrArg String.data h
    rw [UnitEntityName, MachineEntityName, string_data_append, string_data_append] at hd
    have hu : ("unit-" : String).data = ['u', 'n', 'i', 't', '-'] := rfl
    have hm : ("machine-" : String).data = ['m', 'a', 'c', 'h', 'i', 'n', 'e', '-'] := rfl
    rw [hu, hm] at hd
    simp at hd

/-- Witness for the amended C9: the dash-free unit names a/b and c get
distinct entity names, and a unit entity name differs from a machine
entity name. -/
theorem entity_names_unique_witness :
    UnitEntityName "a/b" ≠ UnitEntityName "c" ∧
    UnitEntityName "x" ≠ MachineEntityName "0" :=
  entity_names_unique "a/b" "c" "x" "0" (by decide) (by decide) (by decide)

/-- C8: BlockDevicePath returns the by-id directory joined with the
serial when the serial is non-empty — the serial takes precedence over
the device name — returns the dev directory joined with the device
name when only the device name is non-empty, and returns an error
exactly when both are empty. -/
theorem block_device_path_spec (device : BlockDevice) :
    (device.Serial ≠ "" →
      BlockDevicePath device = Except.ok (filepathJoin [diskByID, device.Serial])) ∧
    (device.Serial = "" → device.DeviceName ≠ "" →
      BlockDevicePath device =
        Except.ok (filepathJoin [diskByDeviceName, device.DeviceName])) ∧
    (BlockDevicePath device = Except.error "could not determine path for block device" ↔
      device.Serial = "" ∧ device.DeviceName = "") := by
  refine ⟨?_, ?_, ?_⟩
  · intro hs
    rw [BlockDevicePath, if_pos hs]
  · intro hs hn
    rw [BlockDevicePath, if_neg (by simp [hs]), if_pos hn]
  · constructor
    · intro h
      by_cases hs : device.Serial = ""
      · by_cases hn : device.DeviceName = ""
        · exact ⟨hs, hn⟩
        · rw [BlockDevicePath, if_neg (by simp [hs]), if_pos hn] at h
          exact absurd h (by simp)
      · rw [BlockDevicePath, if_pos hs] at h
        exact absurd h (by simp)
    · intro ⟨hs, hn⟩
      rw [BlockDevicePath, if_neg (by simp [hs]), if_neg (by simp [hn])]

/-- Witness for C8: a device with serial abc resolves under the by-id
directory, a device with only a device name sda resolves under dev,
and a device with neither yields the error. -/
theorem block_device_path_spec_witness :
    BlockDevicePath ⟨"", "abc"⟩ = Except.ok (filepathJoin [diskByID, "abc"]) ∧
    BlockDevicePath ⟨"sda", ""⟩ = Except.ok (filepathJoin [diskByDeviceName, "sda"]) ∧
    BlockDevicePath ⟨"", ""⟩ = Except.error "could not determine path for block device" :=
  ⟨(block_device_path_spec ⟨"", "abc"⟩).1 (by decide),
   (block_device_path_spec ⟨"sda", ""⟩).2.1 (by decide) (by decide),
   (block_device_path_spec ⟨"", ""⟩).2.2.mpr (by decide)⟩

/-- C10: a PUT or DELETE request served while the backend has a
non-empty httpsBaseURL, or while it fails the auth-key check, is
answered 401 Unauthorized and the backing store is not modified; and a
request is authorised exactly when the configured authkey is empty or
the authkey query parameter equals it. -/
theorem storage_modify_requires_auth (s : storageBackend) (req : HttpRequest)
    (hm : req.Method = "PUT" ∨ req.Method = "DELETE")
    (hblock : s.httpsBaseURL ≠ "" ∨ authorised s req = false) :
    ((ServeHTTP s req).1.Status = 401 ∧ (ServeHTTP s req).2 = s.backend) ∧
    (authorised s req = true ↔
      (s.authkey = "" ∨ queryGet req.Query "authkey" = s.authkey)) := by
  constructor
  · have hcond : (req.Method = "PUT" ∨ req.Method = "DELETE") ∧
        (s.httpsBaseURL ≠ "" ∨ ¬ authorised s req) := by
      refine ⟨hm, ?_⟩
      cases hblock with
      | inl h => exact Or.inl h
      | inr h => exact Or.inr (by simp [h])
    rw [ServeHTTP, if_pos hcond]
    exact ⟨rfl, rfl⟩
  · rw [authorised]
    by_cases ha : s.authkey = ""
    · simp [ha]
    · simp [ha]

/-- Witness for C10: a PUT with a wrong auth key against a backend with
authkey k is answered 401 and the store is unchanged. -/
theorem storage_modify_requires_auth_witness :
    ((ServeHTTP ⟨[("f", "d")], "", "k"⟩
        ⟨"PUT", "/f", [("authkey", "wrong")], 1, "x"⟩).1.Status = 401 ∧
      (ServeHTTP ⟨[("f", "d")], "", "k"⟩
        ⟨"PUT", "/f", [("authkey", "wrong")], 1, "x"⟩).2 = [("f", "d")]) ∧
    (authorised ⟨[("f", "d")], "", "k"⟩ ⟨"PUT", "/f", [("authkey", "wrong")], 1, "x"⟩ = true ↔
      ("k" = "" ∨ queryGet [("authkey", "wrong")] "authkey" = "k")) :=
  storage_modify_requires_auth ⟨[("f", "d")], "", "k"⟩
    ⟨"PUT", "/f", [("authkey", "wrong")], 1, "x"⟩ (Or.inl rfl) (Or.inr (by decide))
